import Mathlib

/-!
# goprohtds: the discovery read path, the HTTP front door and the supervisor

A shallow embedding of `cmd/goprohtds/goprohtds.go` and `cmd/goprohtds/routes.go`.

Conventions of the embedding.

* Go strings and byte slices are Lean `String`s.  The only separator the program
  splits on is the one-byte `/`, which never occurs inside a multi-byte UTF-8
  sequence, so splitting by character and splitting by byte agree.
* A Go `error` is represented by its `Error()` text; a nil error is `none`.
* A Go slice is an `Option (List α)`: `none` is the nil slice.
* A function that can raise a run-time panic returns an `Outcome`.
* Library code the program calls but does not contain is either an explicit
  parameter (the JSON decoder `json.Unmarshal`, the answer of the store to the
  range query) or a small definition that follows the documented behaviour of the
  library (`strings.Split`, `http.Error`, `json.Encoder`, `http.ServeMux`,
  `http.Server.Shutdown`, `errgroup.Group.Wait`), as of Go 1.22 and later.
-/

set_option autoImplicit false

namespace Goprohtds

/-! ## Data model -/

/-- Result of running Go code that may panic instead of returning. -/
inductive Outcome (α : Type) where
  | returned (a : α)
  | panicked (msg : String)
  deriving DecidableEq, Repr

/-- A Go slice: `none` is the nil slice, `some xs` a non-nil slice holding `xs`. -/
abbrev Slice (α : Type) := Option (List α)

/-- Go's builtin `append(s, x)`: the result is never nil. -/
def Slice.append {α : Type} : Slice α → α → Slice α
  | none, x => some [x]
  | some xs, x => some (xs ++ [x])

/-- One key/value pair of a range response (`mvccpb.KeyValue`, fields `Key` and `Value`). -/
structure KeyValue where
  Key : String
  Value : String
  deriving DecidableEq, Repr

/-- The record stored at a registration key (`type ServiceDef struct`). -/
structure ServiceDef where
  ServicePort : Int
  MetricsPort : Int
  MetricsUrl : String
  deriving DecidableEq, Repr

/-- One discovery target group (`type ServiceInfo struct`).  `Labels` is the Go map,
kept as an association list; the program only ever builds the one-entry map literal. -/
structure ServiceInfo where
  Targets : Slice String
  Labels : List (String × String)
  deriving DecidableEq, Repr

/-- The store handle as the read path sees it: the answer of
`c.Get(ctx, "/", clientv3.WithPrefix())`, either an error or the key/value pairs. -/
structure Client where
  Get : Except String (List KeyValue)

/-- The decoder `json.Unmarshal(value, &sd)` applied to a fresh `ServiceDef`:
the decoded record, or the text of the decoder's error. -/
abbrev Unmarshal := String → Except String ServiceDef

/-! ## `strings.Split` with a one-byte separator -/

/-- Split a character list at every occurrence of `sep`; the result has one more
element than there are separators, so it is never empty. -/
def splitChars (sep : Char) : List Char → List (List Char)
  | [] => [[]]
  | c :: cs =>
    if c = sep then [] :: splitChars sep cs
    else
      match splitChars sep cs with
      | [] => [[c]]
      | seg :: segs => (c :: seg) :: segs

/-- Model of `strings.Split(s, sep)` for a separator of one byte, the only way the
program calls it (`strings.Split(string(kv.Key), "/")`). -/
def stringsSplit (s : String) (sep : Char) : List String :=
  (splitChars sep s.data).map String.mk

/-! ## The discovery reader -/

/-- The body of the `for _, kv := range data.Kvs` loop of `GetServices`, started with
the groups collected so far.  The value is decoded first; only then is `fields[3]`
read, which panics when the key has fewer than four segments. -/
def GetServices.loop (unmarshal : Unmarshal) :
    List KeyValue → Slice ServiceInfo → Outcome (Slice ServiceInfo × Option String)
  | [], si => .returned (si, none)
  | kv :: kvs, si =>
    let fields := stringsSplit kv.Key '/'
    match unmarshal kv.Value with
    | .error err => .returned (si, some err)
    | .ok sd =>
      match fields with
      | _ :: _ :: f2 :: f3 :: _ =>
        GetServices.loop unmarshal kvs
          (Slice.append si
            { Targets := some [f3 ++ ":" ++ toString sd.MetricsPort],
              Labels := [("job", f2)] })
      | _ =>
        .panicked ("runtime error: index out of range [3] with length "
          ++ toString fields.length)

/-- Model of `GetServices`: returns the pair `(si, err)`, or panics. -/
def GetServices (unmarshal : Unmarshal) (c : Client) :
    Outcome (Slice ServiceInfo × Option String) :=
  match c.Get with
  | .error err => .returned (some [], some err)
  | .ok kvs => GetServices.loop unmarshal kvs (some [])

/-! ## HTTP responses and the JSON encoder -/

/-- What a handler wrote to the `http.ResponseWriter`. -/
structure Response where
  Status : Nat
  Header : List (String × String)
  Body : String
  deriving DecidableEq, Repr

/-- The constant `http.StatusOK`. -/
def StatusOK : Nat := 200

/-- The constant `http.StatusNotFound`. -/
def StatusNotFound : Nat := 404

/-- The constant `http.StatusServiceUnavailable`. -/
def StatusServiceUnavailable : Nat := 503

/-- Model of `http.Error(w, error, code)`: plain-text headers, the status code, and
the text followed by a line feed (`fmt.Fprintln`). -/
def httpError (error : String) (code : Nat) : Response :=
  { Status := code,
    Header := [("Content-Type", "text/plain; charset=utf-8"),
               ("X-Content-Type-Options", "nosniff")],
    Body := error ++ "\n" }

/-- How `encoding/json` (Go 1.22 and later, HTML escaping on, as `json.NewEncoder`
has it) writes one character inside a string literal. -/
def jsonEscapeChar (c : Char) : String :=
  if c = Char.ofNat 34 then "\\\""
  else if c = Char.ofNat 92 then "\\\\"
  else if c = Char.ofNat 8 then "\\b"
  else if c = Char.ofNat 12 then "\\f"
  else if c = Char.ofNat 10 then "\\n"
  else if c = Char.ofNat 13 then "\\r"
  else if c = Char.ofNat 9 then "\\t"
  else if c.toNat < 32 ∨ c = Char.ofNat 60 ∨ c = Char.ofNat 62 ∨ c = Char.ofNat 38 then
    "\\u00" ++ String.singleton (Nat.digitChar (c.toNat / 16))
      ++ String.singleton (Nat.digitChar (c.toNat % 16))
  else if c.toNat = 8232 then "\\u2028"
  else if c.toNat = 8233 then "\\u2029"
  else String.singleton c

/-- A Go string as a JSON string literal. -/
def jsonString (s : String) : String :=
  "\"" ++ String.join (s.data.map jsonEscapeChar) ++ "\""

/-- A `[]string` as JSON: `null` for the nil slice, otherwise an array. -/
def jsonStrings : Slice String → String
  | none => "null"
  | some xs => "[" ++ ",".intercalate (xs.map jsonString) ++ "]"

/-- Insert a map entry into a list of entries that is ordered by key. -/
def insertByKey (e : String × String) : List (String × String) → List (String × String)
  | [] => [e]
  | x :: xs => if e.1 < x.1 then e :: x :: xs else x :: insertByKey e xs

/-- A `map[string]string` as JSON: an object whose members are ordered by key. -/
def jsonLabels (m : List (String × String)) : String :=
  "\x7b" ++ ",".intercalate
    ((m.foldr insertByKey []).map fun kv => jsonString kv.1 ++ ":" ++ jsonString kv.2)
    ++ "\x7d"

/-- A `ServiceInfo` as JSON, with the member names of its struct tags. -/
def jsonServiceInfo (g : ServiceInfo) : String :=
  "\x7b\"targets\":" ++ jsonStrings g.Targets ++ ",\"labels\":" ++ jsonLabels g.Labels ++ "\x7d"

/-- A `[]ServiceInfo` as JSON: `null` for the nil slice, otherwise an array. -/
def jsonServiceInfos : Slice ServiceInfo → String
  | none => "null"
  | some gs => "[" ++ ",".intercalate (gs.map jsonServiceInfo) ++ "]"

/-- Model of `encode(w, r, status, v)` at `T = []ServiceInfo`: the JSON content type,
the status, and the value as the encoder writes it, a line feed after it.  Encoding
a slice of strings and string maps cannot fail, so the returned error is nil. -/
def encode (status : Nat) (v : Slice ServiceInfo) : Response :=
  { Status := status,
    Header := [("Content-Type", "application/json")],
    Body := jsonServiceInfos v ++ "\n" }

/-! ## The HTTP front door -/

/-- The part of an `http.Request` the routing looks at: the method and the escaped
path of the request URL (`r.URL.EscapedPath()`), the path as the request line has it. -/
structure Request where
  Method : String
  Path : String
  deriving DecidableEq, Repr

/-- An `http.Handler`: the response it writes, unless it panics (the server then
recovers, logs, and drops the connection without a response). -/
abbrev Handler := Request → Outcome Response

/-- Model of `handleServerBlock(c)`. -/
def handleServerBlock (unmarshal : Unmarshal) (c : Client) : Handler := fun _ =>
  match GetServices unmarshal c with
  | .panicked msg => .panicked msg
  | .returned (_, some err) => .returned (httpError err StatusServiceUnavailable)
  | .returned (sib, none) => .returned (encode StatusOK sib)

/-- Model of `http.NotFoundHandler()`: `http.Error(w, "404 page not found", 404)`. -/
def NotFoundHandler : Handler := fun _ =>
  .returned (httpError "404 page not found" StatusNotFound)

/-- An `http.ServeMux`: the registered patterns with their handlers. -/
structure ServeMux where
  entries : List (String × Handler)

/-- Model of `http.NewServeMux()`. -/
def NewServeMux : ServeMux := ⟨[]⟩

/-- Model of `mux.Handle(pattern, handler)`. -/
def ServeMux.Handle (mux : ServeMux) (pattern : String) (handler : Handler) : ServeMux :=
  ⟨mux.entries ++ [(pattern, handler)]⟩

/-- The value of a hexadecimal digit (`unhex` of net/url). -/
def unhex (c : Char) : Option Nat :=
  if 48 ≤ c.toNat ∧ c.toNat ≤ 57 then some (c.toNat - 48)
  else if 97 ≤ c.toNat ∧ c.toNat ≤ 102 then some (c.toNat - 97 + 10)
  else if 65 ≤ c.toNat ∧ c.toNat ≤ 70 then some (c.toNat - 65 + 10)
  else none

/-- Percent-decoding of `url.PathUnescape`: every `%` must be followed by two
hexadecimal digits and the three characters become the byte they name; anything
else is an escape error (`none`).  A decoded byte is kept as the character of that
code; the registered patterns are ASCII, so a comparison with them is unaffected. -/
def unescapeChars : List Char → Option (List Char)
  | [] => some []
  | c :: rest =>
    if c = '%' then
      match rest with
      | a :: b :: rest2 =>
        match unhex a, unhex b with
        | some x, some y => (unescapeChars rest2).map fun cs => Char.ofNat (16 * x + y) :: cs
        | _, _ => none
      | _ => none
    else (unescapeChars rest).map fun cs => c :: cs

/-- Model of net/http's `pathUnescape`: the percent-decoded segment, or the segment
as it stands when it is not validly escaped. -/
def pathUnescape (seg : String) : String :=
  match unescapeChars seg.data with
  | some cs => String.mk cs
  | none => seg

/-- The segments of a request path as the routing tree of net/http (Go 1.22 and
later) reads them with `firstSegment`: the first character, the leading slash, is
dropped, the rest is cut at every `/`, and each piece is unescaped. -/
def pathSegments (path : String) : List String :=
  (splitChars '/' path.data.tail).map fun seg => pathUnescape (String.mk seg)

/-- Whether a pattern made of literal segments matches a request path.  The empty
path matches nothing.  A pattern without a trailing slash matches the paths whose
segments are exactly its own; a pattern with a trailing slash matches the paths
that go on, by at least a slash, after its segments. -/
def pathMatch (pattern path : String) : Bool :=
  let literals := (splitChars '/' pattern.data.tail).map String.mk
  let segs := pathSegments path
  path != "" &&
    if pattern.data.getLast? = some '/' then
      literals.dropLast.isPrefixOf segs && decide (literals.dropLast.length < segs.length)
    else segs == literals

/-- The registered entry whose pattern matches `path`; the longest pattern wins. -/
def ServeMux.lookup (mux : ServeMux) (path : String) : Option (String × Handler) :=
  mux.entries.foldl
    (fun best e =>
      if pathMatch e.1 path then
        match best with
        | none => some e
        | some b => if b.1.length < e.1.length then some e else some b
      else best)
    none

/-- The element stack of `path.Clean` on a rooted path: empty and `.` elements are
dropped, `..` removes the element before it (and is dropped at the root). -/
def cleanSegments : List String → List String → List String
  | [], stack => stack.reverse
  | seg :: rest, stack =>
    if seg = "" ∨ seg = "." then cleanSegments rest stack
    else if seg = ".." then cleanSegments rest stack.tail
    else cleanSegments rest (seg :: stack)

/-- Model of `path.Clean` on a rooted path. -/
def pathClean (p : String) : String :=
  "/" ++ "/".intercalate (cleanSegments (stringsSplit p '/') [])

/-- Model of net/http's `cleanPath`: the canonical form of a request path, which
is rooted, has no empty, `.` or `..` elements, and keeps a trailing slash. -/
def cleanPath (p : String) : String :=
  if p = "" then "/"
  else
    let q := if p.data.head? = some '/' then p else "/" ++ p
    let np := pathClean q
    if q.data.getLast? = some '/' ∧ np ≠ "/" then np ++ "/" else np

/-- Model of net/http's `exactMatch`: whether the entry found matches `path`
without the help of a trailing-slash wildcard.  A pattern without a trailing slash
always does; a pattern with one does when the path ends in a slash and has as many
slashes as the pattern. -/
def exactMatch (n : Option (String × Handler)) (path : String) : Bool :=
  match n with
  | none => false
  | some (pattern, _) =>
    if pattern.data.getLast? ≠ some '/' then true
    else if path ≠ "" ∧ path.data.getLast? ≠ some '/' then false
    else pattern.data.count '/' == path.data.count '/'

/-- Model of `(*ServeMux).matchOrRedirect`: the entry for `path`, and whether the
mux redirects to `path` with a slash added instead.  It does when the redirect is
asked for (`withURL`), `path` has no exact match and no trailing slash, and the
path with the slash added has an exact match. -/
def ServeMux.matchOrRedirect (mux : ServeMux) (path : String) (withURL : Bool) :
    Option (String × Handler) × Bool :=
  let n := mux.lookup path
  if !exactMatch n path && withURL && decide (path.data.getLast? ≠ some '/') then
    if exactMatch (mux.lookup (path ++ "/")) (path ++ "/") then (none, true) else (n, false)
  else (n, false)

/-- What the mux does with a request: run a registered handler (named by its
pattern, empty when the mux falls back to its own not-found handler), answer by
itself with a redirect, or answer by itself with `400 Bad Request`.  The status,
target and body of a redirect are not modelled. -/
inductive Served where
  | handled (pattern : String) (out : Outcome Response)
  | redirected
  | badRequest
  deriving DecidableEq, Repr

/-- Run the entry that was found, or the not-found handler when there is none. -/
def serveMatch (n : Option (String × Handler)) (r : Request) : Served :=
  match n with
  | some (pattern, handler) => .handled pattern (handler r)
  | none => .handled "" (NotFoundHandler r)

/-- Model of `(*http.ServeMux).ServeHTTP` of Go 1.22 and later, for patterns without
host and method; `r.Path` is the escaped path `r.URL.EscapedPath()`.  The request
target `*` is refused.  A `CONNECT` request is matched as it stands, after the
trailing-slash redirect has had its chance.  Any other request is redirected when
the trailing-slash redirect applies to its cleaned path or when its path is not the
cleaned path; otherwise the matching handler runs. -/
def ServeMux.ServeHTTP (mux : ServeMux) (r : Request) : Served :=
  if r.Path = "*" then .badRequest
  else if r.Method = "CONNECT" then
    if (mux.matchOrRedirect r.Path true).2 then .redirected
    else serveMatch (mux.matchOrRedirect r.Path false).1 r
  else
    let found := mux.matchOrRedirect (cleanPath r.Path) true
    if found.2 then .redirected
    else if cleanPath r.Path ≠ r.Path then .redirected
    else serveMatch found.1 r

/-- Model of `addRoutes(mux, c)`. -/
def addRoutes (unmarshal : Unmarshal) (mux : ServeMux) (c : Client) : ServeMux :=
  (mux.Handle "/services" (handleServerBlock unmarshal c)).Handle "/" NotFoundHandler

/-- Model of `NewServer(c)`. -/
def NewServer (unmarshal : Unmarshal) (c : Client) : ServeMux :=
  addRoutes unmarshal NewServeMux c

/-! ## Worked-example data -/

/-- The registration record of the specification's example. -/
def exampleValue : String :=
  "\x7b\"service_port\":8080,\"metrics_port\":9090,\"metrics_url\":\"/metrics\"\x7d"

/-- A second registration record: the same metrics port, the other fields differ. -/
def otherValue : String :=
  "\x7b\"service_port\":443,\"metrics_port\":9090,\"metrics_url\":\"/prom\"\x7d"

/-- What `json.Unmarshal` answers on the payloads of the worked examples: the two
records decode to their three fields, the empty payload is rejected with the
decoder's end-of-input error.  A table for these payloads only; any other payload
is treated like the empty one. -/
def exampleUnmarshal : Unmarshal := fun v =>
  if v = exampleValue then
    .ok { ServicePort := 8080, MetricsPort := 9090, MetricsUrl := "/metrics" }
  else if v = otherValue then
    .ok { ServicePort := 443, MetricsPort := 9090, MetricsUrl := "/prom" }
  else .error "unexpected end of JSON input"

/-- Model of `strings.Contains`. -/
def stringsContains (s substr : String) : Bool :=
  s.data.tails.any fun t => substr.data.isPrefixOf t

/-! ## The supervisor -/

/-- The text of `context.Canceled`. -/
def contextCanceled : String := "context canceled"

/-- The text of `http.ErrServerClosed`, which `ListenAndServe` returns once
`Shutdown` has been called. -/
def ErrServerClosed : String := "http: Server closed"

/-- Model of `(*errgroup.Group).Wait`, given what the units returned in the order in
which they finished: the first non-nil error, nil when there is none. -/
def errgroupWait : List (Option String) → Option String
  | [] => none
  | some err :: _ => some err
  | none :: rest => errgroupWait rest

/-- Model of `(*http.Server).Shutdown(ctx)` once the listeners are closed (`lnerr` is
the error of closing them).  `polls` lists, for the successive polls of the
connection table, how many connections are still serving a request; after the last
listed poll every connection is idle.  Each round returns `lnerr` when nothing is
busy, and otherwise gives up with the context's error when the context is done.
The second component is the number of requests unfinished at the return. -/
def serverShutdown (ctxDone : Bool) (lnerr : Option String) : List Nat → Option String × Nat
  | [] => (lnerr, 0)
  | busy :: later =>
    if busy = 0 then (lnerr, 0)
    else if ctxDone then (some contextCanceled, busy)
    else serverShutdown ctxDone lnerr later

/-- What the surroundings of `run` decide once `<-ctx.Done()` has fired. -/
structure RunEnv where
  /-- What `ea.KeepAlive(ctx)` returns. -/
  keepAlive : Option String
  /-- What `svr.ListenAndServe()` returns; the library never returns nil here. -/
  listenAndServe : String
  /-- Whether the listener unit finishes before the keepalive unit. -/
  listenerFirst : Bool
  /-- The error of closing the listeners inside `Shutdown`. -/
  lnerr : Option String
  /-- Requests in flight at the successive polls of `Shutdown`. -/
  polls : List Nat

/-- What `run` hands back, with two observations about the moment of the return:
how many requests were still unfinished, and whether `g.Wait()` was reached. -/
structure RunResult where
  err : Option String
  unfinished : Nat
  waited : Bool
  deriving DecidableEq, Repr

/-- Model of the tail of `run`, from `<-ctx.Done()` on: `svr.Shutdown(ctx)` with the
context that is done at that point, then `g.Wait()`, then `return nil`. -/
def run (env : RunEnv) : RunResult :=
  match serverShutdown true env.lnerr env.polls with
  | (some err, n) => { err := some err, unfinished := n, waited := false }
  | (none, n) =>
    let units :=
      if env.listenerFirst then [some env.listenAndServe, env.keepAlive]
      else [env.keepAlive, some env.listenAndServe]
    match errgroupWait units with
    | some err => { err := some err, unfinished := n, waited := true }
    | none => { err := none, unfinished := n, waited := true }

/-! ## Vocabulary of the statements -/

/-- The `i`-th segment of an entry's key, split on `/` (empty when there is none). -/
def segment (kv : KeyValue) (i : Nat) : String :=
  (stringsSplit kv.Key '/').getD i ""

/-- An entry is well formed when its key has at least four segments and its value
decodes. -/
def wellFormed (unmarshal : Unmarshal) (kv : KeyValue) : Bool :=
  decide (4 ≤ (stringsSplit kv.Key '/').length) &&
    match unmarshal kv.Value with
    | .ok _ => true
    | .error _ => false

/-- The metrics port of an entry's decoded value (0 when the value does not decode). -/
def metricsPort (unmarshal : Unmarshal) (kv : KeyValue) : Int :=
  match unmarshal kv.Value with
  | .ok sd => sd.MetricsPort
  | .error _ => 0

/-- The group an entry stands for: the single target `segment 3 : metrics port` and
the single label `job = segment 2`. -/
def groupOf (unmarshal : Unmarshal) (kv : KeyValue) : ServiceInfo :=
  { Targets := some [segment kv 3 ++ ":" ++ toString (metricsPort unmarshal kv)],
    Labels := [("job", segment kv 2)] }

/-! ## Lemmas on the loop of `GetServices` -/

theorem loop_step_of_wellFormed (unmarshal : Unmarshal) (kv : KeyValue)
    (kvs : List KeyValue) (si : Slice ServiceInfo) (h : wellFormed unmarshal kv = true) :
    GetServices.loop unmarshal (kv :: kvs) si
      = GetServices.loop unmarshal kvs (Slice.append si (groupOf unmarshal kv)) := by
  unfold wellFormed at h
  simp only [Bool.and_eq_true, decide_eq_true_eq] at h
  obtain ⟨hlen, hdec⟩ := h
  cases hu : unmarshal kv.Value with
  | error e => simp [hu] at hdec
  | ok sd =>
    have hfields : ∃ a b c d rest, stringsSplit kv.Key '/' = a :: b :: c :: d :: rest := by
      match hs : stringsSplit kv.Key '/' with
      | [] => simp [hs] at hlen
      | [_] => simp [hs] at hlen
      | [_, _] => simp [hs] at hlen
      | [_, _, _] => simp [hs] at hlen
      | a :: b :: c :: d :: rest => exact ⟨a, b, c, d, rest, rfl⟩
    obtain ⟨a, b, c, d, rest, hs⟩ := hfields
    simp [GetServices.loop, hu, hs, groupOf, segment, metricsPort]

theorem loop_of_all_wellFormed (unmarshal : Unmarshal) (kvs : List KeyValue)
    (acc : List ServiceInfo) (h : ∀ kv ∈ kvs, wellFormed unmarshal kv = true) :
    GetServices.loop unmarshal kvs (some acc)
      = .returned (some (acc ++ kvs.map (groupOf unmarshal)), none) := by
  induction kvs generalizing acc with
  | nil => simp [GetServices.loop]
  | cons kv kvs ih =>
    rw [loop_step_of_wellFormed unmarshal kv kvs (some acc) (h kv (List.mem_cons_self _ _))]
    simp only [Slice.append]
    rw [ih (acc ++ [groupOf unmarshal kv]) (fun x hx => h x (List.mem_cons_of_mem _ hx))]
    simp

theorem loop_append_of_wellFormed (unmarshal : Unmarshal) (pre rest : List KeyValue)
    (acc : List ServiceInfo) (h : ∀ kv ∈ pre, wellFormed unmarshal kv = true) :
    GetServices.loop unmarshal (pre ++ rest) (some acc)
      = GetServices.loop unmarshal rest (some (acc ++ pre.map (groupOf unmarshal))) := by
  induction pre generalizing acc with
  | nil => simp
  | cons kv kvs ih =>
    rw [List.cons_append,
      loop_step_of_wellFormed unmarshal kv _ (some acc) (h kv (List.mem_cons_self _ _))]
    simp only [Slice.append]
    rw [ih (acc ++ [groupOf unmarshal kv]) (fun x hx => h x (List.mem_cons_of_mem _ hx))]
    simp

theorem GetServices_of_all_wellFormed (unmarshal : Unmarshal) (kvs : List KeyValue)
    (h : ∀ kv ∈ kvs, wellFormed unmarshal kv = true) :
    GetServices unmarshal ⟨.ok kvs⟩ = .returned (some (kvs.map (groupOf unmarshal)), none) := by
  simp [GetServices, loop_of_all_wellFormed unmarshal kvs [] h]

theorem wellFormed_iff (unmarshal : Unmarshal) (kv : KeyValue) :
    wellFormed unmarshal kv = true ↔
      4 ≤ (stringsSplit kv.Key '/').length ∧ ∃ sd, unmarshal kv.Value = .ok sd := by
  unfold wellFormed
  cases hu : unmarshal kv.Value <;> simp

theorem metricsPort_of_ok (unmarshal : Unmarshal) (kv : KeyValue) (sd : ServiceDef)
    (h : unmarshal kv.Value = .ok sd) : metricsPort unmarshal kv = sd.MetricsPort := by
  simp [metricsPort, h]

theorem groupOf_congr (unmarshal : Unmarshal) (a b : KeyValue)
    (h2 : segment a 2 = segment b 2) (h3 : segment a 3 = segment b 3)
    (hp : metricsPort unmarshal a = metricsPort unmarshal b) :
    groupOf unmarshal a = groupOf unmarshal b := by
  simp [groupOf, h2, h3, hp]

/-! ## The discovery reader on well-formed entries -/

/-- C1: when every entry returned by the range query is well formed (its key has at
least four segments and its value decodes), `GetServices` returns a nil error and
exactly as many groups as there are entries, and the group of an entry has the
single target `segment 3 : metrics port in decimal` and the single label
`job = segment 2`. -/
theorem GetServices_one_group_per_entry (unmarshal : Unmarshal) (kvs : List KeyValue)
    (h : ∀ kv ∈ kvs,
      4 ≤ (stringsSplit kv.Key '/').length ∧ ∃ sd, unmarshal kv.Value = .ok sd) :
    ∃ groups : List ServiceInfo,
      GetServices unmarshal ⟨.ok kvs⟩ = .returned (some groups, none) ∧
      groups.length = kvs.length ∧
      List.Forall₂
        (fun kv g => ∃ sd, unmarshal kv.Value = .ok sd ∧
          g.Targets = some [segment kv 3 ++ ":" ++ toString sd.MetricsPort] ∧
          g.Labels = [("job", segment kv 2)])
        kvs groups := by
  have hwf : ∀ kv ∈ kvs, wellFormed unmarshal kv = true :=
    fun kv hkv => (wellFormed_iff unmarshal kv).2 (h kv hkv)
  refine ⟨kvs.map (groupOf unmarshal), GetServices_of_all_wellFormed unmarshal kvs hwf,
    by simp, ?_⟩
  rw [List.forall₂_map_right_iff]
  apply List.forall₂_same.2
  intro kv hkv
  obtain ⟨_, sd, hsd⟩ := h kv hkv
  exact ⟨sd, hsd, by simp [groupOf, metricsPort_of_ok unmarshal kv sd hsd], rfl⟩

/-- C1, at the specification's example: key `/discovery/webapp/instance-7` with
metrics port 9090 gives the one group with target `instance-7:9090` and label
`job = webapp`. -/
theorem GetServices_one_group_per_entry_witness :
    GetServices exampleUnmarshal ⟨.ok [⟨"/discovery/webapp/instance-7", exampleValue⟩]⟩
        = .returned (some [⟨some ["instance-7:9090"], [("job", "webapp")]⟩], none) ∧
      ∃ groups : List ServiceInfo,
        GetServices exampleUnmarshal ⟨.ok [⟨"/discovery/webapp/instance-7", exampleValue⟩]⟩
          = .returned (some groups, none) ∧
        groups.length = [KeyValue.mk "/discovery/webapp/instance-7" exampleValue].length ∧
        List.Forall₂
          (fun kv g => ∃ sd, exampleUnmarshal kv.Value = .ok sd ∧
            g.Targets = some [segment kv 3 ++ ":" ++ toString sd.MetricsPort] ∧
            g.Labels = [("job", segment kv 2)])
          [⟨"/discovery/webapp/instance-7", exampleValue⟩] groups :=
  ⟨by decide,
   GetServices_one_group_per_entry exampleUnmarshal
     [⟨"/discovery/webapp/instance-7", exampleValue⟩]
     (by
       intro kv hkv
       rw [List.mem_singleton] at hkv
       subst hkv
       exact ⟨by decide, ⟨_, rfl⟩⟩)⟩

/-- C4: on well-formed entries the `i`-th group of the output is the group of the
`i`-th entry of the range response, for every index, so nothing is reordered,
dropped or merged; in particular two entries at different positions that agree on
segments 2 and 3 and on the metrics port give two equal groups, each at the
position of its entry. -/
theorem GetServices_preserves_order (unmarshal : Unmarshal) (kvs : List KeyValue)
    (h : ∀ kv ∈ kvs, wellFormed unmarshal kv = true) :
    ∃ groups : List ServiceInfo,
      GetServices unmarshal ⟨.ok kvs⟩ = .returned (some groups, none) ∧
      (∀ i : Nat, groups[i]? = (kvs[i]?).map (groupOf unmarshal)) ∧
      (∀ (i j : Nat) (a b : KeyValue), kvs[i]? = some a → kvs[j]? = some b →
        segment a 2 = segment b 2 → segment a 3 = segment b 3 →
        metricsPort unmarshal a = metricsPort unmarshal b →
        groups[i]? = some (groupOf unmarshal a) ∧ groups[j]? = some (groupOf unmarshal a)) := by
  refine ⟨kvs.map (groupOf unmarshal), GetServices_of_all_wellFormed unmarshal kvs h,
    fun i => by simp, ?_⟩
  intro i j a b ha hb h2 h3 hp
  constructor
  · simp [ha]
  · simp [hb, groupOf_congr unmarshal a b h2 h3 hp]

/-- C4, at the keys `/a/job/inst` and `/b/job/inst` with the same metrics port: the
output holds the same group twice. -/
theorem GetServices_preserves_order_witness :
    GetServices exampleUnmarshal
        ⟨.ok [⟨"/a/job/inst", exampleValue⟩, ⟨"/b/job/inst", exampleValue⟩]⟩
        = .returned (some [⟨some ["inst:9090"], [("job", "job")]⟩,
            ⟨some ["inst:9090"], [("job", "job")]⟩], none) ∧
      ∃ groups : List ServiceInfo,
        GetServices exampleUnmarshal
          ⟨.ok [⟨"/a/job/inst", exampleValue⟩, ⟨"/b/job/inst", exampleValue⟩]⟩
          = .returned (some groups, none) ∧
        (∀ i : Nat, groups[i]? =
          ([KeyValue.mk "/a/job/inst" exampleValue, ⟨"/b/job/inst", exampleValue⟩][i]?).map
            (groupOf exampleUnmarshal)) ∧
        (∀ (i j : Nat) (a b : KeyValue),
          [KeyValue.mk "/a/job/inst" exampleValue, ⟨"/b/job/inst", exampleValue⟩][i]? = some a →
          [KeyValue.mk "/a/job/inst" exampleValue, ⟨"/b/job/inst", exampleValue⟩][j]? = some b →
          segment a 2 = segment b 2 → segment a 3 = segment b 3 →
          metricsPort exampleUnmarshal a = metricsPort exampleUnmarshal b →
          groups[i]? = some (groupOf exampleUnmarshal a) ∧
            groups[j]? = some (groupOf exampleUnmarshal a)) :=
  ⟨by decide,
   GetServices_preserves_order exampleUnmarshal
     [⟨"/a/job/inst", exampleValue⟩, ⟨"/b/job/inst", exampleValue⟩]
     (by decide)⟩

/-- C10: two range responses of well-formed entries that agree, entry by entry, on
segment 2, segment 3 and the decoded metrics port make `GetServices` return the same
result, whatever the other key segments, the service port and the metrics URL are. -/
theorem GetServices_depends_only_on_job_instance_port (unmarshal : Unmarshal)
    (kvs₁ kvs₂ : List KeyValue)
    (h₁ : ∀ kv ∈ kvs₁, wellFormed unmarshal kv = true)
    (h₂ : ∀ kv ∈ kvs₂, wellFormed unmarshal kv = true)
    (hlen : kvs₁.length = kvs₂.length)
    (hagree : ∀ (i : Nat) (a b : KeyValue), kvs₁[i]? = some a → kvs₂[i]? = some b →
      segment a 2 = segment b 2 ∧ segment a 3 = segment b 3 ∧
        metricsPort unmarshal a = metricsPort unmarshal b) :
    GetServices unmarshal ⟨.ok kvs₁⟩ = GetServices unmarshal ⟨.ok kvs₂⟩ := by
  rw [GetServices_of_all_wellFormed unmarshal kvs₁ h₁,
    GetServices_of_all_wellFormed unmarshal kvs₂ h₂]
  have hmap : kvs₁.map (groupOf unmarshal) = kvs₂.map (groupOf unmarshal) := by
    apply List.ext_getElem?
    intro i
    simp only [List.getElem?_map]
    cases ha : kvs₁[i]? with
    | none =>
      have : kvs₂[i]? = none := by
        rw [List.getElem?_eq_none_iff] at ha ⊢
        omega
      simp [this]
    | some a =>
      cases hb : kvs₂[i]? with
      | none =>
        rw [List.getElem?_eq_none_iff] at hb
        have := (List.getElem?_eq_some_iff.1 ha).1
        omega
      | some b =>
        obtain ⟨h2, h3, hp⟩ := hagree i a b ha hb
        simp [groupOf_congr unmarshal a b h2 h3 hp]
  rw [hmap]

/-- C10, at two one-entry responses whose keys differ in segment 1 and in having a
segment 4, and whose values differ in service port and metrics URL. -/
theorem GetServices_depends_only_on_job_instance_port_witness :
    GetServices exampleUnmarshal ⟨.ok [⟨"/discovery/webapp/instance-7", exampleValue⟩]⟩
      = GetServices exampleUnmarshal ⟨.ok [⟨"/other/webapp/instance-7/extra", otherValue⟩]⟩ :=
  GetServices_depends_only_on_job_instance_port exampleUnmarshal
    [⟨"/discovery/webapp/instance-7", exampleValue⟩] [⟨"/other/webapp/instance-7/extra", otherValue⟩]
    (by decide) (by decide) rfl
    (by
      intro i a b ha hb
      match i with
      | 0 =>
        simp only [List.getElem?_cons_zero, Option.some.injEq] at ha hb
        subst ha hb
        decide
      | k + 1 => simp at ha)

/-! ## Malformed entries -/

theorem loop_of_bad_value (unmarshal : Unmarshal) (kv : KeyValue) (rest : List KeyValue)
    (si : Slice ServiceInfo) (err : String) (h : unmarshal kv.Value = .error err) :
    GetServices.loop unmarshal (kv :: rest) si = .returned (si, some err) := by
  simp [GetServices.loop, h]

theorem loop_of_short_key (unmarshal : Unmarshal) (kv : KeyValue) (rest : List KeyValue)
    (si : Slice ServiceInfo) (sd : ServiceDef) (h : unmarshal kv.Value = .ok sd)
    (hlen : (stringsSplit kv.Key '/').length < 4) :
    GetServices.loop unmarshal (kv :: rest) si
      = .panicked ("runtime error: index out of range [3] with length "
          ++ toString (stringsSplit kv.Key '/').length) := by
  match hs : stringsSplit kv.Key '/' with
  | [] => simp [GetServices.loop, h, hs]
  | [_] => simp [GetServices.loop, h, hs]
  | [_, _] => simp [GetServices.loop, h, hs]
  | [_, _, _] => simp [GetServices.loop, h, hs]
  | _ :: _ :: _ :: _ :: _ => simp only [hs, List.length_cons] at hlen; omega

/-- A key with fewer than four segments whose value decodes, behind well-formed
entries, makes `GetServices` panic on `fields[3]`, and the handler with it. -/
theorem GetServices_panics_of_short_key (unmarshal : Unmarshal) (pre post : List KeyValue)
    (kv : KeyValue) (sd : ServiceDef) (r : Request)
    (hpre : ∀ x ∈ pre, wellFormed unmarshal x = true)
    (h : unmarshal kv.Value = .ok sd) (hlen : (stringsSplit kv.Key '/').length < 4) :
    GetServices unmarshal ⟨.ok (pre ++ kv :: post)⟩
        = .panicked ("runtime error: index out of range [3] with length "
            ++ toString (stringsSplit kv.Key '/').length) ∧
      handleServerBlock unmarshal ⟨.ok (pre ++ kv :: post)⟩ r
        = .panicked ("runtime error: index out of range [3] with length "
            ++ toString (stringsSplit kv.Key '/').length) := by
  have hg : GetServices unmarshal ⟨.ok (pre ++ kv :: post)⟩
      = .panicked ("runtime error: index out of range [3] with length "
          ++ toString (stringsSplit kv.Key '/').length) := by
    simp only [GetServices]
    rw [loop_append_of_wellFormed unmarshal pre (kv :: post) [] hpre,
      loop_of_short_key unmarshal kv post _ sd h hlen]
  exact ⟨hg, by simp only [handleServerBlock, hg]⟩

/-- C2, evaluated at the failing input: with the single entry `/discovery/webapp`
(three segments, a value that decodes) `GetServices` does not return an error, it
panics on `fields[3]`; the handler panics with it, and for `GET /services` the
server runs that handler, so no status is written at all. -/
theorem GetServices_short_key_panics :
    GetServices exampleUnmarshal ⟨.ok [⟨"/discovery/webapp", exampleValue⟩]⟩
        = .panicked "runtime error: index out of range [3] with length 3" ∧
      handleServerBlock exampleUnmarshal ⟨.ok [⟨"/discovery/webapp", exampleValue⟩]⟩
          ⟨"GET", "/services"⟩
        = .panicked "runtime error: index out of range [3] with length 3" ∧
      (NewServer exampleUnmarshal ⟨.ok [⟨"/discovery/webapp", exampleValue⟩]⟩).ServeHTTP
          ⟨"GET", "/services"⟩
        = .handled "/services"
            (.panicked "runtime error: index out of range [3] with length 3") := by
  decide

/-- C3, as amended: when the entries in front of the first entry whose value does
not decode are well formed, `GetServices` stops at that entry and returns the
decoder's own error, unchanged, next to the groups collected so far; the entry is
not skipped, whatever its key and whatever follows it, and the handler answers 503
with that error text. -/
theorem GetServices_bad_value_returns_decoder_error (unmarshal : Unmarshal)
    (pre post : List KeyValue) (kv : KeyValue) (err : String) (r : Request)
    (hpre : ∀ x ∈ pre, wellFormed unmarshal x = true)
    (hbad : unmarshal kv.Value = .error err) :
    GetServices unmarshal ⟨.ok (pre ++ kv :: post)⟩
        = .returned (some (pre.map (groupOf unmarshal)), some err) ∧
      handleServerBlock unmarshal ⟨.ok (pre ++ kv :: post)⟩ r
        = .returned
            { Status := 503,
              Header := [("Content-Type", "text/plain; charset=utf-8"),
                         ("X-Content-Type-Options", "nosniff")],
              Body := err ++ "\n" } := by
  have hg : GetServices unmarshal ⟨.ok (pre ++ kv :: post)⟩
      = .returned (some (pre.map (groupOf unmarshal)), some err) := by
    simp only [GetServices]
    rw [loop_append_of_wellFormed unmarshal pre (kv :: post) [] hpre,
      loop_of_bad_value unmarshal kv post _ err hbad]
    simp
  exact ⟨hg, by simp only [handleServerBlock, hg, httpError, StatusServiceUnavailable]⟩

/-- C3 as amended, at a well-formed entry followed by an entry with an empty value. -/
theorem GetServices_bad_value_returns_decoder_error_witness :
    GetServices exampleUnmarshal
        ⟨.ok ([⟨"/discovery/webapp/instance-7", exampleValue⟩]
          ++ ⟨"/discovery/webapp/instance-8", ""⟩ :: [])⟩
        = .returned (some ([KeyValue.mk "/discovery/webapp/instance-7" exampleValue].map
            (groupOf exampleUnmarshal)), some "unexpected end of JSON input") ∧
      handleServerBlock exampleUnmarshal
        ⟨.ok ([⟨"/discovery/webapp/instance-7", exampleValue⟩]
          ++ ⟨"/discovery/webapp/instance-8", ""⟩ :: [])⟩ ⟨"GET", "/services"⟩
        = .returned
            { Status := 503,
              Header := [("Content-Type", "text/plain; charset=utf-8"),
                         ("X-Content-Type-Options", "nosniff")],
              Body := "unexpected end of JSON input" ++ "\n" } :=
  GetServices_bad_value_returns_decoder_error exampleUnmarshal
    [⟨"/discovery/webapp/instance-7", exampleValue⟩] []
    ⟨"/discovery/webapp/instance-8", ""⟩ "unexpected end of JSON input" ⟨"GET", "/services"⟩
    (by decide) rfl

/-- C3 as stated fails twice.  With the single entry `/discovery/webapp/instance-7`
holding an empty value, the error `GetServices` returns is the decoder's text, in
which the key does not occur.  With the decodable three-segment entry
`/discovery/webapp` in front of that entry, `GetServices` returns no error at all:
it panics before it reaches the bad value. -/
theorem GetServices_bad_value_counterexample :
    GetServices exampleUnmarshal ⟨.ok [⟨"/discovery/webapp/instance-7", ""⟩]⟩
        = .returned (some [], some "unexpected end of JSON input") ∧
      stringsContains "unexpected end of JSON input" "/discovery/webapp/instance-7" = false ∧
      GetServices exampleUnmarshal
          ⟨.ok [⟨"/discovery/webapp", exampleValue⟩, ⟨"/discovery/webapp/instance-7", ""⟩]⟩
        = .panicked "runtime error: index out of range [3] with length 3" := by
  decide

/-! ## The `/services` handler -/

theorem loop_slice_not_nil (unmarshal : Unmarshal) (kvs : List KeyValue)
    (si res : Slice ServiceInfo) (err : Option String)
    (hsi : si ≠ none) (h : GetServices.loop unmarshal kvs si = .returned (res, err)) :
    res ≠ none := by
  induction kvs generalizing si with
  | nil =>
    simp only [GetServices.loop, Outcome.returned.injEq, Prod.mk.injEq] at h
    rw [← h.1]
    exact hsi
  | cons kv kvs ih =>
    simp only [GetServices.loop] at h
    split at h
    · simp only [Outcome.returned.injEq, Prod.mk.injEq] at h
      rw [← h.1]
      exact hsi
    · split at h
      · refine ih _ ?_ h
        cases si <;> simp [Slice.append]
      · simp at h

theorem GetServices_slice_not_nil (unmarshal : Unmarshal) (c : Client)
    (res : Slice ServiceInfo) (err : Option String)
    (h : GetServices unmarshal c = .returned (res, err)) : res ≠ none := by
  unfold GetServices at h
  split at h
  · simp only [Outcome.returned.injEq, Prod.mk.injEq] at h
    rw [← h.1]
    simp
  · exact loop_slice_not_nil unmarshal _ (some []) res err (by simp) h

/-- C5: when `GetServices` returns a nil error, the handler answers with status 200,
the content type `application/json`, and as body the returned groups as a JSON
array of objects with the members `targets` and `labels` (closed by the encoder's
line feed); the slice is never nil, so the array is never `null`, and for an empty
range response the body is `[]`. -/
theorem handleServerBlock_success (unmarshal : Unmarshal) (c : Client) (r : Request)
    (si : Slice ServiceInfo) (h : GetServices unmarshal c = .returned (si, none)) :
    ∃ groups : List ServiceInfo, si = some groups ∧
      handleServerBlock unmarshal c r
        = .returned
            { Status := 200,
              Header := [("Content-Type", "application/json")],
              Body := "[" ++ ",".intercalate (groups.map fun g =>
                  "\x7b\"targets\":" ++ jsonStrings g.Targets
                    ++ ",\"labels\":" ++ jsonLabels g.Labels ++ "\x7d")
                ++ "]" ++ "\n" } ∧
      (c.Get = .ok [] →
        handleServerBlock unmarshal c r
          = .returned
              { Status := 200,
                Header := [("Content-Type", "application/json")],
                Body := "[]\n" }) := by
  cases hsi : si with
  | none => exact absurd hsi (GetServices_slice_not_nil unmarshal c si none h)
  | some groups =>
    subst hsi
    refine ⟨groups, rfl, ?_, ?_⟩
    · simp only [handleServerBlock, h, encode, StatusOK, jsonServiceInfos]
      rfl
    · intro hget
      have hempty : GetServices unmarshal c = .returned (some [], none) := by
        simp [GetServices, hget, GetServices.loop]
      simp only [handleServerBlock, hempty, encode, StatusOK, jsonServiceInfos]
      rfl

/-- C5, at the empty range response, where the body is `[]`, and at the
specification's example, where the body is the array with the one group of
`/discovery/webapp/instance-7`. -/
theorem handleServerBlock_success_witness :
    handleServerBlock exampleUnmarshal ⟨.ok []⟩ ⟨"GET", "/services"⟩
        = .returned
            { Status := 200,
              Header := [("Content-Type", "application/json")],
              Body := "[]\n" } ∧
      GetServices exampleUnmarshal ⟨.ok [⟨"/discovery/webapp/instance-7", exampleValue⟩]⟩
        = .returned (some [⟨some ["instance-7:9090"], [("job", "webapp")]⟩], none) ∧
      ∃ groups : List ServiceInfo,
        some [ServiceInfo.mk (some ["instance-7:9090"]) [("job", "webapp")]] = some groups ∧
        handleServerBlock exampleUnmarshal
            ⟨.ok [⟨"/discovery/webapp/instance-7", exampleValue⟩]⟩ ⟨"GET", "/services"⟩
          = .returned
              { Status := 200,
                Header := [("Content-Type", "application/json")],
                Body := "[\x7b\"targets\":[\"instance-7:9090\"],\"labels\":\x7b\"job\":\"webapp\"\x7d\x7d]\n" } :=
  ⟨(handleServerBlock_success exampleUnmarshal ⟨.ok []⟩ ⟨"GET", "/services"⟩ (some [])
      (by decide)).elim fun _ hg => hg.2.2 rfl,
   by decide,
   (handleServerBlock_success exampleUnmarshal
      ⟨.ok [⟨"/discovery/webapp/instance-7", exampleValue⟩]⟩ ⟨"GET", "/services"⟩
      (some [⟨some ["instance-7:9090"], [("job", "webapp")]⟩]) (by decide)).imp
     fun groups hg => ⟨hg.1, by
       have hgroups : [ServiceInfo.mk (some ["instance-7:9090"]) [("job", "webapp")]] = groups :=
         Option.some.inj hg.1
       subst hgroups
       exact hg.2.1.trans (by decide)⟩⟩

/-- The empty range response: `GET /services` is answered with 200 and the body `[]`. -/
theorem handleServerBlock_empty_store (unmarshal : Unmarshal) (r : Request) :
    handleServerBlock unmarshal ⟨.ok []⟩ r
      = .returned
          { Status := 200, Header := [("Content-Type", "application/json")], Body := "[]\n" } := by
  have hempty : GetServices unmarshal ⟨.ok []⟩ = .returned (some [], none) := by
    simp [GetServices, GetServices.loop]
  simp only [handleServerBlock, hempty, encode, StatusOK, jsonServiceInfos]
  rfl

/-- C6: when `GetServices` returns an error, the handler answers with status 503
and the error's text as body (closed by the line feed of `http.Error`), in plain
text: the status is not 200 and nothing is sent as JSON.  A failed range query is
such a case, and the text is then the store's error. -/
theorem handleServerBlock_failure (unmarshal : Unmarshal) (c : Client) (r : Request)
    (si : Slice ServiceInfo) (err : String)
    (h : GetServices unmarshal c = .returned (si, some err)) :
    ∃ resp : Response,
      handleServerBlock unmarshal c r = .returned resp ∧
      resp.Status = 503 ∧ resp.Body = err ++ "\n" ∧
      resp.Status ≠ 200 ∧
      resp.Header = [("Content-Type", "text/plain; charset=utf-8"),
                     ("X-Content-Type-Options", "nosniff")] ∧
      ("Content-Type", "application/json") ∉ resp.Header ∧
      (∀ e : String, c.Get = .error e → err = e) := by
  refine ⟨httpError err StatusServiceUnavailable, ?_, rfl, rfl,
    by simp [httpError, StatusServiceUnavailable], rfl, by simp [httpError], ?_⟩
  · simp only [handleServerBlock, h]
  · intro e he
    simp only [GetServices, he, Outcome.returned.injEq, Prod.mk.injEq, Option.some.injEq] at h
    exact h.2.symm

/-- C6, at a range query that fails with a deadline error. -/
theorem handleServerBlock_failure_witness :
    ∃ resp : Response,
      handleServerBlock exampleUnmarshal ⟨.error "context deadline exceeded"⟩
          ⟨"GET", "/services"⟩ = .returned resp ∧
      resp.Status = 503 ∧ resp.Body = "context deadline exceeded" ++ "\n" ∧
      resp.Status ≠ 200 ∧
      resp.Header = [("Content-Type", "text/plain; charset=utf-8"),
                     ("X-Content-Type-Options", "nosniff")] ∧
      ("Content-Type", "application/json") ∉ resp.Header ∧
      (∀ e : String, (Client.mk (.error "context deadline exceeded")).Get = .error e →
        "context deadline exceeded" = e) :=
  handleServerBlock_failure exampleUnmarshal ⟨.error "context deadline exceeded"⟩
    ⟨"GET", "/services"⟩ (some []) "context deadline exceeded" rfl

/-! ## Routing -/

theorem pathClean_data (p : String) : ∃ rest : List Char, (pathClean p).data = '/' :: rest := by
  refine ⟨("/".intercalate (cleanSegments (stringsSplit p '/') [])).data, ?_⟩
  simp [pathClean, String.data_append]

theorem cleanPath_rooted (p : String) : (cleanPath p).data.head? = some '/' := by
  unfold cleanPath
  split
  · rfl
  · dsimp only
    generalize (if p.data.head? = some '/' then p else "/" ++ p) = q
    obtain ⟨rest, hrest⟩ := pathClean_data q
    split <;> simp [String.data_append, hrest]

theorem splitChars_ne_nil (sep : Char) (l : List Char) : splitChars sep l ≠ [] := by
  cases l with
  | nil => simp [splitChars]
  | cons c cs =>
    simp only [splitChars]
    split
    · simp
    · split <;> simp

theorem splitChars_append_sep (sep : Char) (l : List Char) :
    splitChars sep (l ++ [sep]) = splitChars sep l ++ [[]] := by
  induction l with
  | nil => simp [splitChars]
  | cons c cs ih =>
    simp only [List.cons_append, splitChars, List.append_eq, ih]
    split
    · simp
    · cases hs : splitChars sep cs with
      | nil => exact absurd hs (splitChars_ne_nil sep cs)
      | cons seg segs => simp

theorem pathSegments_ne_nil (path : String) : pathSegments path ≠ [] := by
  simp [pathSegments, splitChars_ne_nil]

theorem pathSegments_append_slash (path : String) (h : path ≠ "") :
    pathSegments (path ++ "/") = pathSegments path ++ [""] := by
  have hdata : path.data ≠ [] := fun hd => h (String.ext hd)
  have htail : (path ++ "/").data.tail = path.data.tail ++ ['/'] := by
    cases hp : path.data with
    | nil => exact absurd hp hdata
    | cons c cs => simp [String.data_append, hp]
  simp only [pathSegments, htail, splitChars_append_sep, List.map_append, List.map_cons,
    List.map_nil]
  rfl

theorem pathSegments_append_slash_ne (path : String) (h : path ≠ "") :
    pathSegments (path ++ "/") ≠ ["services"] := by
  rw [pathSegments_append_slash path h]
  cases hs : pathSegments path with
  | nil => exact absurd hs (pathSegments_ne_nil path)
  | cons seg segs => simp

theorem pathMatch_services (path : String) (h : pathSegments path ≠ ["services"]) :
    pathMatch "/services" path = false := by
  have hlit : (splitChars '/' ("/services" : String).data.tail).map String.mk = ["services"] := by
    decide
  have hlast : ("/services" : String).data.getLast? ≠ some '/' := by decide
  simp only [pathMatch, hlit, hlast, if_false]
  simp [h]

theorem pathMatch_root (path : String) : pathMatch "/" path = (path != "") := by
  have hlit : (splitChars '/' ("/" : String).data.tail).map String.mk = [""] := by decide
  have hlast : ("/" : String).data.getLast? = some '/' := by decide
  have hlen : 0 < (pathSegments path).length :=
    List.length_pos.2 (pathSegments_ne_nil path)
  simp only [pathMatch, hlit, hlast, if_true]
  simp [hlen]

theorem lookup_NewServer (unmarshal : Unmarshal) (c : Client) (path : String)
    (h : pathSegments path ≠ ["services"]) :
    (NewServer unmarshal c).lookup path
      = if path = "" then none else some ("/", NotFoundHandler) := by
  simp only [NewServer, addRoutes, NewServeMux, ServeMux.Handle, ServeMux.lookup,
    List.nil_append, List.cons_append, List.foldl_cons, List.foldl_nil,
    pathMatch_services path h, pathMatch_root]
  by_cases hp : path = "" <;> simp [hp]

theorem matchOrRedirect_fst (mux : ServeMux) (path : String) (withURL : Bool) :
    (mux.matchOrRedirect path withURL).1 = none ∨
      (mux.matchOrRedirect path withURL).1 = mux.lookup path := by
  unfold ServeMux.matchOrRedirect
  dsimp only
  split
  · split
    · exact Or.inl rfl
    · exact Or.inr rfl
  · exact Or.inr rfl

theorem serveMatch_lookup_NewServer (unmarshal : Unmarshal) (c : Client) (r : Request)
    (path : String) (withURL : Bool) (h : pathSegments path ≠ ["services"])
    (out : Outcome Response) :
    serveMatch ((NewServer unmarshal c).matchOrRedirect path withURL).1 r
      ≠ .handled "/services" out := by
  rcases matchOrRedirect_fst (NewServer unmarshal c) path withURL with hn | hn
  · rw [hn]
    simp [serveMatch]
  · rw [hn, lookup_NewServer unmarshal c path h]
    by_cases hp : path = "" <;> simp [hp, serveMatch]

theorem matchOrRedirect_canonical (unmarshal : Unmarshal) (c : Client) (path : String)
    (h : pathSegments path ≠ ["services"]) (hroot : path.data.head? = some '/') :
    (NewServer unmarshal c).matchOrRedirect path true
      = (some ("/", NotFoundHandler), false) := by
  have hne : path ≠ "" := by
    intro hp
    simp [hp] at hroot
  have hne2 : path ++ "/" ≠ "" := by
    intro hp
    have := congrArg String.data hp
    simp [String.data_append] at this
  have hcount : ("/" : String).data.count '/' ≠ (path ++ "/").data.count '/' := by
    cases hp : path.data with
    | nil => simp [hp] at hroot
    | cons ch cs =>
      simp only [hp, List.head?_cons, Option.some.injEq] at hroot
      subst hroot
      simp [String.data_append, hp, List.count_cons]
  have hlast : (path ++ "/").data.getLast? = some '/' := by
    simp [String.data_append]
  have hrootlast : ("/" : String).data.getLast? = some '/' := by decide
  have hlook := lookup_NewServer unmarshal c path h
  simp only [hne, if_false] at hlook
  have hlook2 :=
    lookup_NewServer unmarshal c (path ++ "/") (pathSegments_append_slash_ne path hne)
  simp only [hne2, if_false] at hlook2
  have hexact : exactMatch (some ("/", NotFoundHandler)) (path ++ "/") = false := by
    have hpat : ¬ (("/" : String).data.getLast? ≠ some '/') := by decide
    have hpath : ¬ (path ++ "/" ≠ "" ∧ (path ++ "/").data.getLast? ≠ some '/') :=
      fun hh => hh.2 hlast
    simp only [exactMatch, hpat, hpath, if_false, beq_eq_false_iff_ne, ne_eq]
    exact hcount
  unfold ServeMux.matchOrRedirect
  simp only [hlook, hlook2, hexact]
  split <;> simp

/-- C7, as amended: a request whose path is neither `/services` nor a
percent-encoded spelling of it never reaches the `/services` handler (so
`GetServices` is not invoked), and when its path is in canonical form it is
answered by the not-found handler with status 404 and the plain-text body
`404 page not found`. -/
theorem NewServer_other_paths_not_found (unmarshal : Unmarshal) (c : Client) (r : Request)
    (hne : pathSegments r.Path ≠ ["services"]) :
    (∀ out : Outcome Response,
      (NewServer unmarshal c).ServeHTTP r ≠ .handled "/services" out) ∧
    (cleanPath r.Path = r.Path →
      (NewServer unmarshal c).ServeHTTP r
        = .handled "/" (.returned
            { Status := 404,
              Header := [("Content-Type", "text/plain; charset=utf-8"),
                         ("X-Content-Type-Options", "nosniff")],
              Body := "404 page not found\n" })) := by
  constructor
  · intro out
    unfold ServeMux.ServeHTTP
    split
    · simp
    · split
      · split
        · simp
        · exact serveMatch_lookup_NewServer unmarshal c r r.Path false hne out
      · dsimp only
        split
        · simp
        · split
          · simp
          · rename_i hclean
            have hcanon : cleanPath r.Path = r.Path := by
              by_contra hc
              exact hclean hc
            rw [hcanon]
            exact serveMatch_lookup_NewServer unmarshal c r r.Path true hne out
  · intro hcanon
    have hroot : r.Path.data.head? = some '/' := by
      rw [← hcanon]
      exact cleanPath_rooted r.Path
    have hstar : r.Path ≠ "*" := by
      intro hs
      rw [hs] at hroot
      exact absurd hroot (by decide)
    have hempty : r.Path ≠ "" := by
      intro hs
      rw [hs] at hroot
      exact absurd hroot (by decide)
    have hplain : ((NewServer unmarshal c).matchOrRedirect r.Path false).1
        = some ("/", NotFoundHandler) := by
      have hlook := lookup_NewServer unmarshal c r.Path hne
      simp only [hempty, if_false] at hlook
      simp [ServeMux.matchOrRedirect, hlook]
    by_cases hm : r.Method = "CONNECT"
    · simp only [ServeMux.ServeHTTP, hstar, hm, if_false, if_true, hplain,
        matchOrRedirect_canonical unmarshal c r.Path hne hroot]
      simp [serveMatch, NotFoundHandler, httpError, StatusNotFound]
    · simp only [ServeMux.ServeHTTP, hstar, hm, if_false, hcanon,
        matchOrRedirect_canonical unmarshal c r.Path hne hroot]
      simp [serveMatch, NotFoundHandler, httpError, StatusNotFound]

/-- C7 as amended, at `GET /services/`, whose path is canonical. -/
theorem NewServer_other_paths_not_found_witness :
    pathSegments "/services/" = ["services", ""] ∧ cleanPath "/services/" = "/services/" ∧
    (∀ out : Outcome Response,
      (NewServer exampleUnmarshal ⟨.ok []⟩).ServeHTTP ⟨"GET", "/services/"⟩
        ≠ .handled "/services" out) ∧
    (NewServer exampleUnmarshal ⟨.ok []⟩).ServeHTTP ⟨"GET", "/services/"⟩
      = .handled "/" (.returned
          { Status := 404,
            Header := [("Content-Type", "text/plain; charset=utf-8"),
                       ("X-Content-Type-Options", "nosniff")],
            Body := "404 page not found\n" }) :=
  ⟨by decide, by decide,
   (NewServer_other_paths_not_found exampleUnmarshal ⟨.ok []⟩ ⟨"GET", "/services/"⟩
      (by decide)).1,
   (NewServer_other_paths_not_found exampleUnmarshal ⟨.ok []⟩ ⟨"GET", "/services/"⟩
      (by decide)).2 (by decide)⟩

/-- C7 as stated fails three times.  `GET /` is answered with 404, but the body is
the text `404 page not found`, not empty.  `GET //services` is not answered with
404: the mux redirects it to the canonical path.  `GET /%73ervices`, whose path is
not the string `/services`, is routed to the `/services` handler, which invokes
`GetServices` and answers 200. -/
theorem NewServer_other_paths_counterexample :
    (NewServer exampleUnmarshal ⟨.ok []⟩).ServeHTTP ⟨"GET", "/"⟩
        = .handled "/" (.returned
            { Status := 404,
              Header := [("Content-Type", "text/plain; charset=utf-8"),
                         ("X-Content-Type-Options", "nosniff")],
              Body := "404 page not found\n" }) ∧
      "404 page not found\n" ≠ "" ∧
      (NewServer exampleUnmarshal ⟨.ok []⟩).ServeHTTP ⟨"GET", "//services"⟩ = .redirected ∧
      "/%73ervices" ≠ "/services" ∧
      (NewServer exampleUnmarshal ⟨.ok []⟩).ServeHTTP ⟨"GET", "/%73ervices"⟩
        = .handled "/services" (.returned
            { Status := 200,
              Header := [("Content-Type", "application/json")],
              Body := "[]\n" }) := by
  decide

/-! ## The supervisor: what `run` returns -/

/-- With the context done, `Shutdown` returns at its first poll: it never waits. -/
theorem serverShutdown_done (lnerr : Option String) (busy : Nat) (later : List Nat)
    (h : busy ≠ 0) :
    serverShutdown true lnerr (busy :: later) = (some contextCanceled, busy) := by
  simp [serverShutdown, h]

/-- Nothing `run` can return is nil: the listener unit always ends with an error,
`http.ErrServerClosed` after a shutdown, and `g.Wait()` hands it on. -/
theorem run_err_ne_none (env : RunEnv) : (run env).err ≠ none := by
  unfold run
  split
  · simp
  · cases hf : env.listenerFirst <;> cases hk : env.keepAlive <;> simp [errgroupWait]

/-- When `Shutdown` returns nil, `run` returns the first error among the units. -/
theorem run_returns_first_unit_error (env : RunEnv)
    (h : (serverShutdown true env.lnerr env.polls).1 = none) :
    (run env).err =
      errgroupWait (if env.listenerFirst then [some env.listenAndServe, env.keepAlive]
        else [env.keepAlive, some env.listenAndServe]) := by
  unfold run
  split
  · rename_i heq
    rw [heq] at h
    simp at h
  · dsimp only
    split <;> simp_all

/-- C8, evaluated at the failing input: a normal shutdown (keepalive returns nil,
closing the listeners succeeds, no request in flight, `ListenAndServe` returns
`http.ErrServerClosed`) makes `run` return `http: Server closed`, not nil, whichever
unit finishes first. -/
theorem run_clean_shutdown_returns_error :
    (run { keepAlive := none, listenAndServe := ErrServerClosed, listenerFirst := true,
           lnerr := none, polls := [] }).err = some "http: Server closed" ∧
      (run { keepAlive := none, listenAndServe := ErrServerClosed, listenerFirst := false,
             lnerr := none, polls := [] }).err = some "http: Server closed" := by
  decide

/-- C9, evaluated at the failing input: with one request in flight when the context
is cancelled, `Shutdown` is called with the cancelled context and gives up at once
with `context canceled`; `run` returns that error with the request unfinished and
without reaching `g.Wait()`.  The same `Shutdown` with a live context waits until
the request is done. -/
theorem run_returns_with_request_in_flight :
    run { keepAlive := none, listenAndServe := ErrServerClosed, listenerFirst := true,
          lnerr := none, polls := [1] }
        = { err := some "context canceled", unfinished := 1, waited := false } ∧
      serverShutdown false none [1] = (none, 0) := by
  decide

end Goprohtds
